import Mathlib

/-!
# Verification of the zenscan document-scanning decision core

This file shallowly embeds the decision core of the zenscan application:
the geometry kernel and quality-scoring functions of
`src/utils/scanQualityAnalyzer.ts` and the `documentTypeDetector` module,
the corner validators of `src/utils/perspectiveCorrection.ts` and the
edge-detection module, and the debounced auto-capture state machine of
`src/utils/autoCaptureController.ts`.

Modelling conventions:

* JavaScript `number` is modelled by `ℚ` where the source only performs
  field arithmetic and comparisons on finite values, and by `JSNum`
  (rationals extended with `NaN` and signed infinities, with IEEE-754
  comparison and arithmetic semantics) where the source can produce
  `NaN`/`Infinity` (the fill-ratio pipeline and the corner-angle pipeline).
* The source's Euclidean `distance` (`Math.sqrt` of a sum of squares) is
  only ever compared against nonnegative constants or used in ratios of
  two distances.  Since `Real.sqrt` is not computable, distances are
  embedded by their squares (`distSq`) and every comparison is squared as
  well: for `a, b ≥ 0`, `√a ≤ b ↔ a ≤ b²` and
  `√a / √b > c ↔ a / b > c²`.  Each use site documents the squared
  constant it uses.
* `Math.acos(...) * 180 / Math.PI` on a non-degenerate corner is a
  transcendental real; no claim depends on its value, so it is abstracted
  by an explicit function parameter `acosDeg` (taking the dot product and
  the product of the squared magnitudes).  Every theorem about the angle
  pipeline is proved for all values of this parameter.  The degenerate
  case (a zero-length vector) is modelled exactly: JavaScript evaluates
  `0 / 0 = NaN` there, and `NaN` falls through every `<` comparison.
* `Date.now()` is passed in as an explicit `now : ℚ` argument.
* Rational division by zero is `0` in Lean; the only place the source can
  divide by zero with plain `ℚ` values is `progress = elapsed / holdDurationMs`
  (never constrained by any claim) and the `min/max` side ratios of
  `isValidQuadrilateral`, where Lean's `0/0 = 0` and JavaScript's
  `0/0 = NaN` both fail the `> 0.64` test, so the embeddings agree.
-/

namespace ZenScan

/-- A 2D point in frame-pixel space (`{ x: number; y: number }`). -/
structure Point where
  x : ℚ
  y : ℚ
deriving DecidableEq

/-- `DocumentCorners` / `CropCorners`: an ordered quadrilateral
(top-left, top-right, bottom-right, bottom-left).  The array-based
corner lists of `perspectiveCorrection.ts` use the same TL/TR/BR/BL
order, so one structure serves both representations. -/
structure Corners where
  topLeft : Point
  topRight : Point
  bottomRight : Point
  bottomLeft : Point
deriving DecidableEq

/-- The corner array `[topLeft, topRight, bottomRight, bottomLeft]`. -/
def cornersList (c : Corners) : List Point :=
  [c.topLeft, c.topRight, c.bottomRight, c.bottomLeft]

/-- Squared Euclidean distance between two points.  The source computes
`Math.sqrt(dx*dx + dy*dy)`; all of its uses compare the result against a
nonnegative constant or ratio two distances, so the square is the
faithful computable embedding. -/
def distSq (p1 p2 : Point) : ℚ :=
  (p2.x - p1.x) ^ 2 + (p2.y - p1.y) ^ 2

theorem distSq_nonneg (p1 p2 : Point) : 0 ≤ distSq p1 p2 := by
  unfold distSq; positivity

/-- A JavaScript `number`: a finite rational, `NaN`, or a signed infinity. -/
inductive JSNum where
  | nan : JSNum
  | inf : JSNum
  | ninf : JSNum
  | num : ℚ → JSNum
deriving DecidableEq

namespace JSNum

/-- JavaScript `<`: any comparison involving `NaN` is `false`. -/
def jlt : JSNum → JSNum → Bool
  | nan, _ => false
  | _, nan => false
  | inf, _ => false
  | ninf, ninf => false
  | ninf, _ => true
  | num _, inf => true
  | num _, ninf => false
  | num a, num b => a < b

/-- JavaScript `<=`: any comparison involving `NaN` is `false`. -/
def jle : JSNum → JSNum → Bool
  | nan, _ => false
  | _, nan => false
  | _, inf => true
  | inf, _ => false
  | ninf, _ => true
  | num _, ninf => false
  | num a, num b => a ≤ b

/-- JavaScript addition. -/
def jadd : JSNum → JSNum → JSNum
  | nan, _ => nan
  | _, nan => nan
  | inf, ninf => nan
  | ninf, inf => nan
  | inf, _ => inf
  | _, inf => inf
  | ninf, _ => ninf
  | _, ninf => ninf
  | num a, num b => num (a + b)

/-- JavaScript subtraction. -/
def jsub : JSNum → JSNum → JSNum
  | nan, _ => nan
  | _, nan => nan
  | inf, inf => nan
  | ninf, ninf => nan
  | inf, _ => inf
  | ninf, _ => ninf
  | num _, inf => ninf
  | num _, ninf => inf
  | num a, num b => num (a - b)

/-- JavaScript multiplication (`±∞ * 0 = NaN`). -/
def jmul : JSNum → JSNum → JSNum
  | nan, _ => nan
  | _, nan => nan
  | inf, inf => inf
  | inf, ninf => ninf
  | ninf, inf => ninf
  | ninf, ninf => inf
  | inf, num a => if a = 0 then nan else if 0 < a then inf else ninf
  | num a, inf => if a = 0 then nan else if 0 < a then inf else ninf
  | ninf, num a => if a = 0 then nan else if 0 < a then ninf else inf
  | num a, ninf => if a = 0 then nan else if 0 < a then ninf else inf
  | num a, num b => num (a * b)

/-- JavaScript division (`0 / 0 = NaN`, `a / 0 = ±∞` for `a ≠ 0`,
division by an unsigned zero treated as `+0`). -/
def jdiv : JSNum → JSNum → JSNum
  | nan, _ => nan
  | _, nan => nan
  | inf, inf => nan
  | inf, ninf => nan
  | ninf, inf => nan
  | ninf, ninf => nan
  | inf, num a => if a < 0 then ninf else inf
  | ninf, num a => if a < 0 then inf else ninf
  | num _, inf => num 0
  | num _, ninf => num 0
  | num a, num b =>
      if b = 0 then (if a = 0 then nan else if 0 < a then inf else ninf)
      else num (a / b)

/-- JavaScript `Math.min` (returns `NaN` if any argument is `NaN`). -/
def jmin : JSNum → JSNum → JSNum
  | nan, _ => nan
  | _, nan => nan
  | ninf, _ => ninf
  | _, ninf => ninf
  | inf, b => b
  | a, inf => a
  | num a, num b => num (min a b)

/-- JavaScript `Math.max` (returns `NaN` if any argument is `NaN`). -/
def jmax : JSNum → JSNum → JSNum
  | nan, _ => nan
  | _, nan => nan
  | inf, _ => inf
  | _, inf => inf
  | ninf, b => b
  | a, ninf => a
  | num a, num b => num (max a b)

/-- JavaScript `Math.abs`. -/
def jabs : JSNum → JSNum
  | nan => nan
  | inf => inf
  | ninf => inf
  | num a => num |a|

end JSNum

open JSNum

/-! ## `documentTypeDetector` module -/

namespace DocumentTypeDetector

/-- The local `area` constant of `calculateFillPercentage`: the shoelace
formula over the four corners, written exactly as in the source. -/
def fillArea (c : Corners) : ℚ :=
  |(c.topLeft.x * (c.topRight.y - c.bottomLeft.y) +
      c.topRight.x * (c.bottomRight.y - c.topLeft.y) +
      c.bottomRight.x * (c.bottomLeft.y - c.topRight.y) +
      c.bottomLeft.x * (c.topLeft.y - c.bottomRight.y)) / 2|

/-- `calculateFillPercentage(corners, frameWidth, frameHeight)`:
`Math.min(1, area / frameArea)`.  The division is a JavaScript division,
so a zero frame area yields `NaN` (zero quad area) or `+∞` (which the
`min` then clamps to `1`). -/
def calculateFillPercentage (c : Corners) (frameWidth frameHeight : ℚ) : JSNum :=
  let frameArea := frameWidth * frameHeight
  jmin (num 1) (jdiv (num (fillArea c)) (num frameArea))

/-- `isValidQuadrilateral(corners)`: compares opposite side lengths;
`min/max > 0.8` must hold for the width pair and the height pair.  The
source ratios Euclidean lengths; the embedding ratios their squares and
compares against `0.8² = 16/25` (equivalent since lengths are `≥ 0` and
`√` is monotone; for a `0/0` ratio JavaScript produces `NaN`, failing the
`>` test, and Lean's `0/0 = 0` fails it as well). -/
def isValidQuadrilateral (c : Corners) : Bool :=
  let width1Sq := distSq c.topLeft c.topRight
  let width2Sq := distSq c.bottomLeft c.bottomRight
  let height1Sq := distSq c.topLeft c.bottomLeft
  let height2Sq := distSq c.topRight c.bottomRight
  let widthRatioSq := min width1Sq width2Sq / max width1Sq width2Sq
  let heightRatioSq := min height1Sq height2Sq / max height1Sq height2Sq
  decide (widthRatioSq > 16 / 25) && decide (heightRatioSq > 16 / 25)

end DocumentTypeDetector

/-! ## `scanQualityAnalyzer` module -/

namespace ScanQualityAnalyzer

/-- `OPTIMAL_FILL_MIN`. -/
def OPTIMAL_FILL_MIN : ℚ := 60 / 100

/-- `OPTIMAL_FILL_MAX`. -/
def OPTIMAL_FILL_MAX : ℚ := 90 / 100

/-- `STABILITY_WINDOW_MS`. -/
def STABILITY_WINDOW_MS : ℚ := 500

/-- `calculateFillScore(fillPercentage)` over JavaScript numbers:
below the optimal band `Math.max(0, (fp / 0.60) * 70)`, above it
`Math.max(40, 100 - (overflow / 0.10) * 60)`, inside it `100`. -/
def calculateFillScore (fillPercentage : JSNum) : JSNum :=
  if jlt fillPercentage (num OPTIMAL_FILL_MIN) then
    jmax (num 0) (jmul (jdiv fillPercentage (num OPTIMAL_FILL_MIN)) (num 70))
  else if jlt (num OPTIMAL_FILL_MAX) fillPercentage then
    let overflow := jsub fillPercentage (num OPTIMAL_FILL_MAX)
    jmax (num 40) (jsub (num 100) (jmul (jdiv overflow (num (10 / 100))) (num 60)))
  else
    num 100

/-- A `CornerHistory` entry: corners plus capture timestamp. -/
structure CornerHistory where
  corners : Corners
  timestamp : ℚ
deriving DecidableEq

/-- `calculateStabilityScore(currentCorners, history)` with `Date.now()`
passed in as `now`.  Movement thresholds `10 / 20 / 30` px on Euclidean
distances become `100 / 400 / 900` on squared distances (`maxMovement`
is a maximum of distances, and `√` is monotone, so comparing the maximum
of the squares against the squared thresholds is equivalent). -/
def calculateStabilityScore (now : ℚ) (currentCorners : Corners)
    (history : List CornerHistory) : ℚ :=
  if history.length = 0 then 0
  else
    let recentHistory := history.filter (fun h => now - h.timestamp ≤ STABILITY_WINDOW_MS)
    if recentHistory.length < 5 then (recentHistory.length : ℚ) / 5 * 50
    else
      let maxMovementSq := recentHistory.foldl
        (fun maxMovement h =>
          max maxMovement
            (max (max (distSq currentCorners.topLeft h.corners.topLeft)
                      (distSq currentCorners.topRight h.corners.topRight))
                 (max (distSq currentCorners.bottomRight h.corners.bottomRight)
                      (distSq currentCorners.bottomLeft h.corners.bottomLeft)))) 0
      if maxMovementSq ≤ 100 then 100
      else if maxMovementSq ≤ 400 then 70
      else if maxMovementSq ≤ 900 then 40
      else 20

/-- `calculateAngle(p1, vertex, p2)`.  JavaScript computes
`Math.acos(clamp(dot / (mag1 * mag2))) * 180 / Math.PI`; when either
vector is zero-length, `dot = 0` and `mag1 * mag2 = 0`, so `0 / 0 = NaN`
flows through `clamp`, `acos` and the scaling unchanged.  The
non-degenerate value is transcendental and is abstracted by the
parameter `acosDeg dot (magSq1 * magSq2)`; every theorem below holds for
all values of that parameter. -/
def calculateAngle (acosDeg : ℚ → ℚ → ℚ) (p1 vertex p2 : Point) : JSNum :=
  let v1x := p1.x - vertex.x
  let v1y := p1.y - vertex.y
  let v2x := p2.x - vertex.x
  let v2y := p2.y - vertex.y
  let dot := v1x * v2x + v1y * v2y
  let magSq1 := v1x * v1x + v1y * v1y
  let magSq2 := v2x * v2x + v2y * v2y
  if magSq1 * magSq2 = 0 then nan else num (acosDeg dot (magSq1 * magSq2))

/-- `calculateCornerAngles(corners)`: the four interior angles. -/
def calculateCornerAngles (acosDeg : ℚ → ℚ → ℚ) (c : Corners) : List JSNum :=
  [calculateAngle acosDeg c.bottomLeft c.topLeft c.topRight,
   calculateAngle acosDeg c.topLeft c.topRight c.bottomRight,
   calculateAngle acosDeg c.topRight c.bottomRight c.bottomLeft,
   calculateAngle acosDeg c.bottomRight c.bottomLeft c.topLeft]

/-- `calculateSharpnessScore(corners)`: average deviation of the corner
angles from 90°, mapped to tiers.  `NaN` fails every `<` comparison, so a
degenerate quad falls through to `40`. -/
def calculateSharpnessScore (acosDeg : ℚ → ℚ → ℚ) (c : Corners) : ℚ :=
  let angles := calculateCornerAngles acosDeg c
  let deviations := angles.map (fun angle => jabs (jsub angle (num 90)))
  let avgDeviation := jdiv (deviations.foldl jadd (num 0)) (num (deviations.length : ℚ))
  if jlt avgDeviation (num 5) then 100
  else if jlt avgDeviation (num 10) then 80
  else if jlt avgDeviation (num 20) then 60
  else 40

/-- `calculateConfidenceScore(corners)`: fixed `20` when
`isValidQuadrilateral` fails, otherwise tiers on the deviation of the
average angle from 90°. -/
def calculateConfidenceScore (acosDeg : ℚ → ℚ → ℚ) (c : Corners) : ℚ :=
  if !DocumentTypeDetector.isValidQuadrilateral c then 20
  else
    let angles := calculateCornerAngles acosDeg c
    let avgAngle := jdiv (angles.foldl jadd (num 0)) (num (angles.length : ℚ))
    let angleDeviation := jabs (jsub avgAngle (num 90))
    if jlt angleDeviation (num 5) then 100
    else if jlt angleDeviation (num 10) then 85
    else if jlt angleDeviation (num 20) then 70
    else 50

end ScanQualityAnalyzer

/-! ## Edge-detection module (3-argument `validateCorners`) -/

namespace EdgeDetection

/-- `calculatePolygonArea(corners)`: shoelace loop over the corner list,
then `Math.abs(area / 2)`. -/
def calculatePolygonArea (c : Corners) : ℚ :=
  let total :=
    (c.topLeft.x * c.topRight.y - c.topRight.x * c.topLeft.y) +
    (c.topRight.x * c.bottomRight.y - c.bottomRight.x * c.topRight.y) +
    (c.bottomRight.x * c.bottomLeft.y - c.bottomLeft.x * c.bottomRight.y) +
    (c.bottomLeft.x * c.topLeft.y - c.topLeft.x * c.bottomLeft.y)
  |total / 2|

/-- `validateCorners(corners, imageWidth, imageHeight)` of the
edge-detection module: every corner in bounds, then the shoelace area at
least 10% of the image area.  (The source's comment also mentions a
convexity check, but the implementation contains none.) -/
def validateCorners (c : Corners) (imageWidth imageHeight : ℚ) : Bool :=
  (cornersList c).all (fun point =>
    !(decide (point.x < 0) || decide (point.x > imageWidth) ||
      decide (point.y < 0) || decide (point.y > imageHeight))) &&
  !decide (calculatePolygonArea c < imageWidth * imageHeight * (10 / 100))

end EdgeDetection

/-! ## `perspectiveCorrection` module -/

namespace PerspectiveCorrection

/-- One cross product of the convexity loop of `validateCorners`:
`v1 = p2 - p1`, `v2 = p3 - p2`, `v1.x * v2.y - v1.y * v2.x`. -/
def cross (p1 p2 p3 : Point) : ℚ :=
  (p2.x - p1.x) * (p3.y - p2.y) - (p2.y - p1.y) * (p3.x - p2.x)

/-- The `crossProducts` list of `validateCorners`: one cross product per
cyclically consecutive corner triple. -/
def quadCrossProducts (c : Corners) : List ℚ :=
  [cross c.topLeft c.topRight c.bottomRight,
   cross c.topRight c.bottomRight c.bottomLeft,
   cross c.bottomRight c.bottomLeft c.topLeft,
   cross c.bottomLeft c.topLeft c.topRight]

/-- The convexity tail of `validateCorners`: all cross products strictly
positive or all strictly negative. -/
def quadIsConvex (c : Corners) : Bool :=
  (quadCrossProducts c).all (fun cp => decide (cp > 0)) ||
  (quadCrossProducts c).all (fun cp => decide (cp < 0))

/-- `validateCorners(corners)` of `perspectiveCorrection.ts`: every pair
of distinct corners at Euclidean distance `≥ 10` (squared: `≥ 100`),
then the cross-product convexity check.  It checks neither bounds nor
area. -/
def validateCorners (c : Corners) : Bool :=
  (!decide (distSq c.topLeft c.topRight < 100) &&
   !decide (distSq c.topLeft c.bottomRight < 100) &&
   !decide (distSq c.topLeft c.bottomLeft < 100) &&
   !decide (distSq c.topRight c.bottomRight < 100) &&
   !decide (distSq c.topRight c.bottomLeft < 100) &&
   !decide (distSq c.bottomRight c.bottomLeft < 100)) &&
  quadIsConvex c

/-- `createDefaultCorners(width, height)`: the centered 5%-inset quad
`[TL, TR, BR, BL]`. -/
def createDefaultCorners (width height : ℚ) : Corners :=
  let insetX := width * (5 / 100)
  let insetY := height * (5 / 100)
  { topLeft := { x := insetX, y := insetY }
    topRight := { x := width - insetX, y := insetY }
    bottomRight := { x := width - insetX, y := height - insetY }
    bottomLeft := { x := insetX, y := height - insetY } }

end PerspectiveCorrection

/-! ## `autoCaptureController` module -/

namespace AutoCapture

/-- `QualityScore.level`. -/
inductive QualityLevel where
  | poor : QualityLevel
  | fair : QualityLevel
  | good : QualityLevel
deriving DecidableEq

/-- `AutoCaptureConfig`. -/
structure AutoCaptureConfig where
  enabled : Bool
  minQualityScore : ℚ
  holdDurationMs : ℚ
  vibrateFeedback : Bool
deriving DecidableEq

/-- `AutoCaptureState`, the per-call derived output. -/
structure AutoCaptureState where
  isReady : Bool
  progress : ℚ
  timeRemaining : ℚ
  shouldCapture : Bool
deriving DecidableEq

/-- A `QualityHistory` entry (`score`, `timestamp`). -/
structure QualityHistory where
  score : ℚ
  timestamp : ℚ
deriving DecidableEq

/-- The fields of the incoming `QualityScore` that `processQuality`
reads, together with the `Date.now()` value of the call. -/
structure QualityInput where
  overall : ℚ
  level : QualityLevel
  now : ℚ
deriving DecidableEq

/-- The controller's private mutable session fields. -/
structure ControllerSession where
  qualityHistory : List QualityHistory
  readyStartTime : Option ℚ
  lastCaptureTime : ℚ
deriving DecidableEq

/-- `minTimeBetweenCaptures` (2 seconds, a fixed private field). -/
def minTimeBetweenCaptures : ℚ := 2000

/-- The session state after construction: empty history, `null`
`readyStartTime`, `lastCaptureTime = 0`. -/
def initialSession : ControllerSession :=
  { qualityHistory := [], readyStartTime := none, lastCaptureTime := 0 }

/-- Does a quality sample meet the capture threshold
(`overall >= minQualityScore && level === 'good'`)? -/
def qualifies (cfg : AutoCaptureConfig) (q : QualityInput) : Prop :=
  cfg.minQualityScore ≤ q.overall ∧ q.level = QualityLevel.good

instance (cfg : AutoCaptureConfig) (q : QualityInput) : Decidable (qualifies cfg q) := by
  unfold qualifies; infer_instance

/-- `processQuality(quality)`: returns the new session state together
with the derived `AutoCaptureState`.  Mirrors the source: the disabled
guard returns before the history push; on firing, `lastCaptureTime` is
set to `now` and `reset()` clears `readyStartTime` and the history. -/
def processQuality (cfg : AutoCaptureConfig) (s : ControllerSession)
    (q : QualityInput) : ControllerSession × AutoCaptureState :=
  if !cfg.enabled then
    (s, { isReady := false, progress := 0, timeRemaining := 0, shouldCapture := false })
  else
    let now := q.now
    let hist := (s.qualityHistory ++ [({ score := q.overall, timestamp := now } : QualityHistory)]).filter
      (fun h => now - 3000 ≤ h.timestamp)
    if cfg.minQualityScore ≤ q.overall ∧ q.level = QualityLevel.good then
      let readyStart := s.readyStartTime.getD now
      let elapsed := now - readyStart
      let progress := min 1 (elapsed / cfg.holdDurationMs)
      let timeRemaining := max 0 (cfg.holdDurationMs - elapsed)
      let shouldCapture :=
        decide (cfg.holdDurationMs ≤ elapsed) &&
        decide (minTimeBetweenCaptures ≤ now - s.lastCaptureTime)
      if shouldCapture then
        ({ qualityHistory := [], readyStartTime := none, lastCaptureTime := now },
         { isReady := true, progress := progress, timeRemaining := timeRemaining,
           shouldCapture := shouldCapture })
      else
        ({ qualityHistory := hist, readyStartTime := some readyStart,
           lastCaptureTime := s.lastCaptureTime },
         { isReady := true, progress := progress, timeRemaining := timeRemaining,
           shouldCapture := shouldCapture })
    else
      ({ qualityHistory := hist, readyStartTime := none,
         lastCaptureTime := s.lastCaptureTime },
       { isReady := false, progress := 0, timeRemaining := cfg.holdDurationMs,
         shouldCapture := false })

/-- `manualCapture()` with `Date.now()` passed as `now`: records the
capture time and `reset()`s the session. -/
def manualCapture (now : ℚ) : ControllerSession :=
  { qualityHistory := [], readyStartTime := none, lastCaptureTime := now }

/-- Fold a sequence of `processQuality` calls over the session state. -/
def runController (cfg : AutoCaptureConfig) (s : ControllerSession) :
    List QualityInput → ControllerSession
  | [] => s
  | q :: rest => runController cfg (processQuality cfg s q).1 rest

/-- The `AutoCaptureState` outputs of a sequence of `processQuality` calls. -/
def runOutputs (cfg : AutoCaptureConfig) (s : ControllerSession) :
    List QualityInput → List AutoCaptureState
  | [] => []
  | q :: rest => (processQuality cfg s q).2 :: runOutputs cfg (processQuality cfg s q).1 rest

end AutoCapture

/-! ## Claim-side definitions

These definitions follow the wording of the specification's claims (not
the source); the refinement theorems below compare them with the source
embeddings.  Distances are squared exactly as in the embeddings
(thresholds `10 / 20 / 30` px become `100 / 400 / 900`, and a length
ratio bound `0.8` becomes `16 / 25` on squared lengths). -/

namespace ClaimSide

open ScanQualityAnalyzer

/-- The (squared) displacement of the worst corner between the current
quad and one past sample. -/
def maxCornerMoveSq (current past : Corners) : ℚ :=
  max (max (distSq current.topLeft past.topLeft)
           (distSq current.topRight past.topRight))
      (max (distSq current.bottomRight past.bottomRight)
           (distSq current.bottomLeft past.bottomLeft))

/-- Claim C2's description of the stability score: `0` on an empty
history; `(count / 5) * 50` when fewer than 5 samples lie in the
trailing 500 ms window; otherwise a 4-tier score of the maximum
per-corner displacement over every in-window sample (squared thresholds
`100 / 400 / 900` for `10 / 20 / 30` px). -/
def specStabilityScore (now : ℚ) (current : Corners)
    (history : List CornerHistory) : ℚ :=
  if history.isEmpty then 0
  else
    let inWindow := history.filter (fun h => now - h.timestamp ≤ 500)
    if inWindow.length < 5 then (inWindow.length : ℚ) / 5 * 50
    else
      let mSq := (inWindow.map (fun h => maxCornerMoveSq current h.corners)).foldl max 0
      if mSq ≤ 100 then 100
      else if mSq ≤ 400 then 70
      else if mSq ≤ 900 then 40
      else 20

/-- Claim C4's reading of the rectangularity heuristic: `min/max ≥ 0.8`
for the opposite-width pair and the opposite-height pair (squared:
`25 * min ≥ 16 * max`). -/
def specRectangularGe (c : Corners) : Bool :=
  let width1Sq := distSq c.topLeft c.topRight
  let width2Sq := distSq c.bottomLeft c.bottomRight
  let height1Sq := distSq c.topLeft c.bottomLeft
  let height2Sq := distSq c.topRight c.bottomRight
  decide (25 * min width1Sq width2Sq ≥ 16 * max width1Sq width2Sq) &&
  decide (25 * min height1Sq height2Sq ≥ 16 * max height1Sq height2Sq)

/-- The strict variant that the code actually implements:
`min/max > 0.8` for both pairs (squared: `25 * min > 16 * max`). -/
def specRectangularGt (c : Corners) : Bool :=
  let width1Sq := distSq c.topLeft c.topRight
  let width2Sq := distSq c.bottomLeft c.bottomRight
  let height1Sq := distSq c.topLeft c.bottomLeft
  let height2Sq := distSq c.topRight c.bottomRight
  decide (25 * min width1Sq width2Sq > 16 * max width1Sq width2Sq) &&
  decide (25 * min height1Sq height2Sq > 16 * max height1Sq height2Sq)

/-- Claim C5: every corner lies within `[0, width] × [0, height]`. -/
def specInBounds (c : Corners) (width height : ℚ) : Bool :=
  (cornersList c).all (fun p =>
    decide (0 ≤ p.x ∧ p.x ≤ width ∧ 0 ≤ p.y ∧ p.y ≤ height))

/-- Claim C5: `area(quad) ≥ 0.10 * width * height`. -/
def specAreaAtLeastTenth (c : Corners) (width height : ℚ) : Bool :=
  decide (width * height * (10 / 100) ≤ EdgeDetection.calculatePolygonArea c)

/-- Claim C5: every pair of corners separated by at least the minimum
pixel distance (10 px in the source; squared: `100`). -/
def specSeparated (c : Corners) : Bool :=
  decide (100 ≤ distSq c.topLeft c.topRight) &&
  decide (100 ≤ distSq c.topLeft c.bottomRight) &&
  decide (100 ≤ distSq c.topLeft c.bottomLeft) &&
  decide (100 ≤ distSq c.topRight c.bottomRight) &&
  decide (100 ≤ distSq c.topRight c.bottomLeft) &&
  decide (100 ≤ distSq c.bottomRight c.bottomLeft)

end ClaimSide

/-! ## Helper lemmas on the JavaScript number model -/

namespace JSNum

@[simp] theorem jlt_num_num (a b : ℚ) : jlt (num a) (num b) = decide (a < b) := rfl

@[simp] theorem jle_num_num (a b : ℚ) : jle (num a) (num b) = decide (a ≤ b) := rfl

@[simp] theorem jadd_num_num (a b : ℚ) : jadd (num a) (num b) = num (a + b) := rfl

@[simp] theorem jsub_num_num (a b : ℚ) : jsub (num a) (num b) = num (a - b) := rfl

@[simp] theorem jmul_num_num (a b : ℚ) : jmul (num a) (num b) = num (a * b) := rfl

@[simp] theorem jmax_num_num (a b : ℚ) : jmax (num a) (num b) = num (max a b) := rfl

@[simp] theorem jmin_num_num (a b : ℚ) : jmin (num a) (num b) = num (min a b) := rfl

@[simp] theorem jabs_num (a : ℚ) : jabs (num a) = num |a| := rfl

theorem jdiv_num_num (a b : ℚ) (hb : b ≠ 0) : jdiv (num a) (num b) = num (a / b) := by
  unfold jdiv; simp [hb]

@[simp] theorem jlt_nan_left (x : JSNum) : jlt nan x = false := by
  cases x <;> rfl

@[simp] theorem jlt_nan_right (x : JSNum) : jlt x nan = false := by
  cases x <;> rfl

@[simp] theorem jadd_nan_left (x : JSNum) : jadd nan x = nan := by
  cases x <;> rfl

@[simp] theorem jadd_nan_right (x : JSNum) : jadd x nan = nan := by
  cases x <;> rfl

theorem foldl_jadd_nan (l : List JSNum) : l.foldl jadd nan = nan := by
  induction l with
  | nil => rfl
  | cons hd tl ih => simpa using ih

theorem foldl_jadd_of_mem_nan (l : List JSNum) (acc : JSNum) (h : nan ∈ l) :
    l.foldl jadd acc = nan := by
  induction l generalizing acc with
  | nil => cases h
  | cons hd tl ih =>
    rcases List.mem_cons.mp h with h1 | h1
    · subst h1
      simpa using foldl_jadd_nan tl
    · exact ih _ h1

end JSNum

/-! ## Claim theorems -/

open ScanQualityAnalyzer DocumentTypeDetector AutoCapture

/-- Claim C8: with `config.enabled = false`, `processQuality` returns the
null/zero `AutoCaptureState` (`isReady = false`, `progress = 0`,
`timeRemaining = 0`, `shouldCapture = false`) and leaves the whole
session — `readyStartTime`, `lastCaptureTime` and the stored quality
history — unchanged, for every quality input and every prior session
state. -/
theorem processQuality_disabled_noop (cfg : AutoCaptureConfig)
    (s : ControllerSession) (q : QualityInput) (h : cfg.enabled = false) :
    processQuality cfg s q =
      (s, { isReady := false, progress := 0, timeRemaining := 0, shouldCapture := false }) := by
  unfold processQuality
  simp [h]

/-- Witness for C8 at a concrete disabled config and a session with
non-trivial history and timers. -/
theorem processQuality_disabled_noop_witness :
    (⟨false, 80, 1500, true⟩ : AutoCaptureConfig).enabled = false ∧
    processQuality ⟨false, 80, 1500, true⟩ ⟨[⟨50, 100⟩], some 7, 42⟩ ⟨95, QualityLevel.good, 5000⟩ =
      (⟨[⟨50, 100⟩], some 7, 42⟩, ⟨false, 0, 0, false⟩) :=
  ⟨rfl, processQuality_disabled_noop ⟨false, 80, 1500, true⟩ ⟨[⟨50, 100⟩], some 7, 42⟩
    ⟨95, QualityLevel.good, 5000⟩ rfl⟩

/-- Claim C3: for every fill ratio `r` (fill ratios are nonnegative: the
source clamps `min(1, area / frameArea)` with `area ≥ 0`), the fill
score is `100` inside the band `[0.60, 0.90]`, `(r / 0.60) * 70` below
it, and `max(40, 100 - ((r - 0.90) / 0.10) * 60)` above it; in
particular `fillScore(0.75) = 100`, `fillScore(0.30) = 35` and
`fillScore(0.95) = 70`; and the score is monotone non-decreasing below
the band and monotone non-increasing above it. -/
theorem fillScore_piecewise_and_monotone :
    (∀ r : ℚ, 0 ≤ r →
      (OPTIMAL_FILL_MIN ≤ r ∧ r ≤ OPTIMAL_FILL_MAX →
        calculateFillScore (JSNum.num r) = JSNum.num 100) ∧
      (r < OPTIMAL_FILL_MIN →
        calculateFillScore (JSNum.num r) = JSNum.num (r / (60 / 100) * 70)) ∧
      (OPTIMAL_FILL_MAX < r →
        calculateFillScore (JSNum.num r) =
          JSNum.num (max 40 (100 - (r - 90 / 100) / (10 / 100) * 60)))) ∧
    calculateFillScore (JSNum.num (75 / 100)) = JSNum.num 100 ∧
    calculateFillScore (JSNum.num (30 / 100)) = JSNum.num 35 ∧
    calculateFillScore (JSNum.num (95 / 100)) = JSNum.num 70 ∧
    (∀ r1 r2 : ℚ, 0 ≤ r1 → r1 ≤ r2 → r2 ≤ OPTIMAL_FILL_MIN →
      JSNum.jle (calculateFillScore (JSNum.num r1)) (calculateFillScore (JSNum.num r2)) = true) ∧
    (∀ r1 r2 : ℚ, OPTIMAL_FILL_MAX ≤ r1 → r1 ≤ r2 →
      JSNum.jle (calculateFillScore (JSNum.num r2)) (calculateFillScore (JSNum.num r1)) = true) := by
  have hval : ∀ r : ℚ, 0 ≤ r →
      calculateFillScore (JSNum.num r) =
        if r < 60 / 100 then JSNum.num (r / (60 / 100) * 70)
        else if 90 / 100 < r then
          JSNum.num (max 40 (100 - (r - 90 / 100) / (10 / 100) * 60))
        else JSNum.num 100 := by
    intro r hr
    unfold calculateFillScore
    unfold OPTIMAL_FILL_MIN OPTIMAL_FILL_MAX
    simp only [JSNum.jlt_num_num]
    by_cases h1 : r < 60 / 100
    · rw [if_pos (by simp [h1]), if_pos h1]
      rw [JSNum.jdiv_num_num _ _ (by norm_num), JSNum.jmul_num_num, JSNum.jmax_num_num]
      congr 1
      exact max_eq_right (by positivity)
    · rw [if_neg (by simp [h1]), if_neg h1]
      by_cases h2 : 90 / 100 < r
      · rw [if_pos (by simp [h2]), if_pos h2]
        rw [JSNum.jsub_num_num, JSNum.jdiv_num_num _ _ (by norm_num),
          JSNum.jmul_num_num, JSNum.jsub_num_num, JSNum.jmax_num_num]
      · rw [if_neg (by simp [h2]), if_neg h2]
  have hmin : OPTIMAL_FILL_MIN = 60 / 100 := rfl
  have hmax : OPTIMAL_FILL_MAX = 90 / 100 := rfl
  refine ⟨?_, ?_, ?_, ?_, ?_, ?_⟩
  · intro r hr
    rw [hmin, hmax]
    refine ⟨?_, ?_, ?_⟩
    · intro hband
      rw [hval r hr, if_neg (not_lt.mpr hband.1), if_neg (not_lt.mpr hband.2)]
    · intro hlow
      rw [hval r hr, if_pos hlow]
    · intro hhigh
      rw [hval r hr, if_neg (by intro hc; linarith), if_pos hhigh]
  · rw [hval _ (by norm_num), if_neg (by norm_num), if_neg (by norm_num)]
  · rw [hval _ (by norm_num), if_pos (by norm_num)]
    norm_num
  · rw [hval _ (by norm_num), if_neg (by norm_num), if_pos (by norm_num)]
    congr 1
    rw [max_eq_right (by norm_num)]
    norm_num
  · intro r1 r2 h0 h12 h2
    rw [hmin] at h2
    have h01 : (0 : ℚ) ≤ r2 := le_trans h0 h12
    rw [hval r1 h0, hval r2 h01]
    have hd : ∀ a b : ℚ, a ≤ b → a / (60 / 100) * 70 ≤ b / (60 / 100) * 70 := by
      intro a b hab
      have : a / (60 / 100) ≤ b / (60 / 100) := by
        apply div_le_div_of_nonneg_right hab
        norm_num
      linarith
    split_ifs with ha hb
    all_goals simp only [JSNum.jle_num_num, decide_eq_true_eq]
    all_goals linarith
  · intro r1 r2 h1 h12
    rw [hmax] at h1
    have h0 : (0 : ℚ) ≤ r1 := by linarith
    have h0' : (0 : ℚ) ≤ r2 := le_trans h0 h12
    rw [hval r1 h0, hval r2 h0']
    have hd : ∀ a b : ℚ, a ≤ b → 90 / 100 ≤ a →
        max (40 : ℚ) (100 - (b - 90 / 100) / (10 / 100) * 60) ≤
          max 40 (100 - (a - 90 / 100) / (10 / 100) * 60) := by
      intro a b hab h09
      apply max_le_max (le_refl 40)
      have : (a - 90 / 100) / (10 / 100) ≤ (b - 90 / 100) / (10 / 100) := by
        apply div_le_div_of_nonneg_right (by linarith)
        norm_num
      linarith
    have hub : ∀ b : ℚ, 90 / 100 ≤ b →
        max (40 : ℚ) (100 - (b - 90 / 100) / (10 / 100) * 60) ≤ 100 := by
      intro b h09
      apply max_le (by norm_num)
      have hn : 0 ≤ (b - 90 / 100) / (10 / 100) * 60 := by
        apply mul_nonneg _ (by norm_num)
        apply div_nonneg (by linarith) (by norm_num)
      linarith
    split_ifs with ha hb hc hd2 <;> simp only [JSNum.jle_num_num, decide_eq_true_eq] <;>
        first
          | linarith
          | exact hd r1 r2 h12 (by linarith)
          | exact hub r2 (by linarith)

/-- Witness for C3 at `r = 0.30`: below the band the score is exactly
`(0.30 / 0.60) * 70`. -/
theorem fillScore_piecewise_and_monotone_witness :
    (0 : ℚ) ≤ 30 / 100 ∧ (30 : ℚ) / 100 < OPTIMAL_FILL_MIN ∧
    calculateFillScore (JSNum.num (30 / 100)) = JSNum.num ((30 / 100) / (60 / 100) * 70) :=
  ⟨by norm_num, by unfold OPTIMAL_FILL_MIN; norm_num,
    ((fillScore_piecewise_and_monotone.1 (30 / 100) (by norm_num)).2.1
      (by unfold OPTIMAL_FILL_MIN; norm_num))⟩

/-- Counterexample to claim C7 as stated: for the unit-square quad and a
`0 × 0` frame, the fill score is `40`, not the claimed minimum score `0`
(JavaScript evaluates `area / 0 = Infinity`, `min(1, Infinity) = 1`, and
`fillScore(1) = 40`). -/
theorem zeroFrame_fillScore_not_zero :
    calculateFillScore
        (calculateFillPercentage ⟨⟨0, 0⟩, ⟨1, 0⟩, ⟨1, 1⟩, ⟨0, 1⟩⟩ 0 0) = JSNum.num 40 ∧
    JSNum.num 40 ≠ JSNum.num 0 := by
  have hfp : calculateFillPercentage ⟨⟨0, 0⟩, ⟨1, 0⟩, ⟨1, 1⟩, ⟨0, 1⟩⟩ 0 0 = JSNum.num 1 := by
    have h1 : fillArea ⟨⟨0, 0⟩, ⟨1, 0⟩, ⟨1, 1⟩, ⟨0, 1⟩⟩ = 1 := by
      unfold fillArea
      norm_num
    unfold calculateFillPercentage
    rw [h1]
    norm_num
    rfl
  constructor
  · rw [hfp]
    unfold calculateFillScore OPTIMAL_FILL_MIN OPTIMAL_FILL_MAX
    rw [if_neg (by norm_num), if_pos (by norm_num)]
    simp only [JSNum.jsub_num_num, JSNum.jmul_num_num, JSNum.jmax_num_num,
      JSNum.jdiv_num_num _ ((10 : ℚ) / 100) (by norm_num)]
    norm_num
  · simp

/-- Claim C7 (amended): for every quad and zero frame area, the fill
pipeline produces no error and the fill score is a defined finite
rational — but not `0`: when the quad's shoelace area is `0` the fill
ratio is `NaN` and the score is `100`; otherwise the ratio `area / 0 = +∞`
clamps to `1` under `min` and the score is `40`. -/
theorem zeroFrame_fillScore_defined (c : Corners) (w h : ℚ) (hwh : w * h = 0) :
    (fillArea c = 0 →
      calculateFillPercentage c w h = JSNum.nan ∧
      calculateFillScore (calculateFillPercentage c w h) = JSNum.num 100) ∧
    (fillArea c ≠ 0 →
      calculateFillPercentage c w h = JSNum.num 1 ∧
      calculateFillScore (calculateFillPercentage c w h) = JSNum.num 40) := by
  have harea : 0 ≤ fillArea c := abs_nonneg _
  constructor
  · intro h0
    have hfp : calculateFillPercentage c w h = JSNum.nan := by
      unfold calculateFillPercentage
      rw [hwh, h0]
      rfl
    refine ⟨hfp, ?_⟩
    rw [hfp]
    rfl
  · intro h0
    have hpos : 0 < fillArea c := lt_of_le_of_ne harea (Ne.symm h0)
    have hfp : calculateFillPercentage c w h = JSNum.num 1 := by
      unfold calculateFillPercentage
      rw [hwh]
      unfold JSNum.jdiv
      simp only [if_pos rfl, if_neg h0, if_pos hpos]
      rfl
    refine ⟨hfp, ?_⟩
    rw [hfp]
    unfold calculateFillScore OPTIMAL_FILL_MIN OPTIMAL_FILL_MAX
    rw [if_neg (by norm_num), if_pos (by norm_num)]
    simp only [JSNum.jsub_num_num, JSNum.jmul_num_num, JSNum.jmax_num_num,
      JSNum.jdiv_num_num _ ((10 : ℚ) / 100) (by norm_num)]
    norm_num

/-- Witness for C7 (amended) at the unit square in a `0 × 0` frame. -/
theorem zeroFrame_fillScore_defined_witness :
    (0 : ℚ) * 0 = 0 ∧ fillArea ⟨⟨0, 0⟩, ⟨1, 0⟩, ⟨1, 1⟩, ⟨0, 1⟩⟩ ≠ 0 ∧
    calculateFillPercentage ⟨⟨0, 0⟩, ⟨1, 0⟩, ⟨1, 1⟩, ⟨0, 1⟩⟩ 0 0 = JSNum.num 1 ∧
    calculateFillScore (calculateFillPercentage ⟨⟨0, 0⟩, ⟨1, 0⟩, ⟨1, 1⟩, ⟨0, 1⟩⟩ 0 0) =
      JSNum.num 40 := by
  have h1 : fillArea ⟨⟨0, 0⟩, ⟨1, 0⟩, ⟨1, 1⟩, ⟨0, 1⟩⟩ ≠ 0 := by
    unfold fillArea
    norm_num
  refine ⟨by norm_num, h1, ?_, ?_⟩
  · exact ((zeroFrame_fillScore_defined ⟨⟨0, 0⟩, ⟨1, 0⟩, ⟨1, 1⟩, ⟨0, 1⟩⟩ 0 0 (by norm_num)).2 h1).1
  · exact ((zeroFrame_fillScore_defined ⟨⟨0, 0⟩, ⟨1, 0⟩, ⟨1, 1⟩, ⟨0, 1⟩⟩ 0 0 (by norm_num)).2 h1).2

/-- Claim C2: the stability score returns `0` on an empty history;
with fewer than 5 samples in the trailing 500 ms window it returns
`(count / 5) * 50`; otherwise it maps the maximum per-corner
displacement over every in-window sample (squared thresholds
`100 / 400 / 900` for `10 / 20 / 30` px) to the 4-tier score
`100 / 70 / 40 / 20` — for every current quad, history list and
call time. -/
theorem stabilityScore_matches_spec (now : ℚ) (current : Corners)
    (history : List CornerHistory) :
    calculateStabilityScore now current history =
      ClaimSide.specStabilityScore now current history := by
  unfold calculateStabilityScore ClaimSide.specStabilityScore STABILITY_WINDOW_MS
  cases history with
  | nil => rfl
  | cons hd tl =>
    have h1 : ¬((hd :: tl).length = 0) := by simp
    have h2 : ¬((hd :: tl).isEmpty = true) := by simp
    rw [if_neg h1, if_neg h2]
    rcases lt_or_ge (List.filter (fun h => decide (now - h.timestamp ≤ 500)) (hd :: tl)).length 5
      with h5 | h5
    · rw [if_pos h5, if_pos h5]
    · rw [if_neg (not_lt.mpr h5), if_neg (not_lt.mpr h5)]
      simp only [ClaimSide.maxCornerMoveSq, List.foldl_map]

/-- If both arguments are nonnegative, the squared-length ratio test
`min/max > 16/25` is equivalent to the product form `25·min > 16·max`
(the `max = 0` case fails both sides: Lean's `0 / 0 = 0` mirrors
JavaScript's `NaN`, which also fails the comparison). -/
theorem ratio_gt_iff (a b : ℚ) (ha : 0 ≤ a) (hb : 0 ≤ b) :
    (min a b / max a b > 16 / 25) ↔ (25 * min a b > 16 * max a b) := by
  have hM0 : 0 ≤ max a b := le_trans ha (le_max_left a b)
  rcases eq_or_lt_of_le hM0 with h | h
  · have ha0 : a = 0 := le_antisymm (le_trans (le_max_left a b) h.symm.le) ha
    have hb0 : b = 0 := le_antisymm (le_trans (le_max_right a b) h.symm.le) hb
    subst ha0; subst hb0
    norm_num
  · rw [gt_iff_lt, lt_div_iff₀ h]
    constructor <;> intro h' <;> [linarith; nlinarith [le_max_left a b]]

/-- Counterexample to claim C4 as stated: the quad with top width 10 and
bottom width 8 has width ratio exactly `0.8`; the claimed `min/max ≥ 0.8`
test accepts it, but `isValidQuadrilateral` uses a strict `> 0.8` and
rejects it. -/
theorem rectangularity_boundary_counterexample :
    isValidQuadrilateral ⟨⟨0, 0⟩, ⟨10, 0⟩, ⟨9, 10⟩, ⟨1, 10⟩⟩ = false ∧
    ClaimSide.specRectangularGe ⟨⟨0, 0⟩, ⟨10, 0⟩, ⟨9, 10⟩, ⟨1, 10⟩⟩ = true := by
  constructor
  · unfold isValidQuadrilateral distSq
    norm_num [min_def, max_def]
  · unfold ClaimSide.specRectangularGe distSq
    norm_num [min_def, max_def]

/-- Claim C4 (amended): the rectangularity heuristic passes exactly when
`min/max > 0.8` holds *strictly* for both the opposite-width pair and the
opposite-height pair; and whenever it fails, the confidence score is the
fixed value `20` regardless of the quad's angles (the statement is
universally quantified over the abstracted angle function). -/
theorem rectangularity_strict_and_confidence (acosDeg : ℚ → ℚ → ℚ) (c : Corners) :
    isValidQuadrilateral c = ClaimSide.specRectangularGt c ∧
    (isValidQuadrilateral c = false →
      ScanQualityAnalyzer.calculateConfidenceScore acosDeg c = 20) := by
  constructor
  · unfold DocumentTypeDetector.isValidQuadrilateral ClaimSide.specRectangularGt
    dsimp only
    have h1 := ratio_gt_iff (distSq c.topLeft c.topRight) (distSq c.bottomLeft c.bottomRight)
      (distSq_nonneg _ _) (distSq_nonneg _ _)
    have h2 := ratio_gt_iff (distSq c.topLeft c.bottomLeft) (distSq c.topRight c.bottomRight)
      (distSq_nonneg _ _) (distSq_nonneg _ _)
    congr 1
    · exact decide_eq_decide.mpr h1
    · exact decide_eq_decide.mpr h2
  · intro hfail
    unfold ScanQualityAnalyzer.calculateConfidenceScore
    rw [hfail]
    rfl

/-- Witness for C4 (amended) at the boundary quad: it fails the
heuristic and receives confidence `20`. -/
theorem rectangularity_strict_and_confidence_witness :
    isValidQuadrilateral ⟨⟨0, 0⟩, ⟨10, 0⟩, ⟨9, 10⟩, ⟨1, 10⟩⟩ = false ∧
    ScanQualityAnalyzer.calculateConfidenceScore (fun _ _ => 0)
      ⟨⟨0, 0⟩, ⟨10, 0⟩, ⟨9, 10⟩, ⟨1, 10⟩⟩ = 20 := by
  have hfail : isValidQuadrilateral ⟨⟨0, 0⟩, ⟨10, 0⟩, ⟨9, 10⟩, ⟨1, 10⟩⟩ = false := by
    unfold isValidQuadrilateral distSq
    norm_num [min_def, max_def]
  exact ⟨hfail,
    (rectangularity_strict_and_confidence (fun _ _ => 0)
      ⟨⟨0, 0⟩, ⟨10, 0⟩, ⟨9, 10⟩, ⟨1, 10⟩⟩).2 hfail⟩

/-- A negated strict comparison flag flips into a non-strict one. -/
theorem not_lt_flag (a b : ℚ) : (!decide (a < b)) = decide (b ≤ a) := by
  rw [← decide_not, decide_eq_decide]
  exact not_lt

/-- A corner's bounds flag of the edge-detection `validateCorners`
equals the claim-side interval-membership flag. -/
theorem bound_flag_eq (p : Point) (w h : ℚ) :
    (!(decide (p.x < 0) || decide (p.x > w) || decide (p.y < 0) || decide (p.y > h))) =
    decide (0 ≤ p.x ∧ p.x ≤ w ∧ 0 ≤ p.y ∧ p.y ≤ h) := by
  by_cases h1 : p.x < 0 <;> by_cases h2 : p.x > w <;>
    by_cases h3 : p.y < 0 <;> by_cases h4 : p.y > h <;>
    simp_all [not_lt]

/-- The edge-detection `validateCorners` is exactly the conjunction of
the bounds check and the 10%-area check. -/
theorem edgeValidate_eq (c : Corners) (w h : ℚ) :
    EdgeDetection.validateCorners c w h =
      (ClaimSide.specInBounds c w h && ClaimSide.specAreaAtLeastTenth c w h) := by
  unfold EdgeDetection.validateCorners ClaimSide.specInBounds ClaimSide.specAreaAtLeastTenth
  congr 1
  · unfold cornersList
    simp only [List.all_cons, List.all_nil, bound_flag_eq]
  · rw [← decide_not, decide_eq_decide]
    exact not_lt

/-- The `perspectiveCorrection` `validateCorners` is exactly the
conjunction of pairwise corner separation and convexity. -/
theorem pcValidate_eq (c : Corners) :
    PerspectiveCorrection.validateCorners c =
      (ClaimSide.specSeparated c && PerspectiveCorrection.quadIsConvex c) := by
  unfold PerspectiveCorrection.validateCorners ClaimSide.specSeparated
  simp only [not_lt_flag]

/-- Counterexample to claim C5 as stated: a non-convex quad (mixed
cross-product signs) inside a `100 × 100` frame with area exactly 10% of
the frame passes the 3-argument `validateCorners` — the claimed
convexity condition is not checked by it. -/
theorem validate_ignores_convexity :
    EdgeDetection.validateCorners ⟨⟨0, 0⟩, ⟨100, 0⟩, ⟨100, 100⟩, ⟨90, 10⟩⟩ 100 100 = true ∧
    PerspectiveCorrection.quadIsConvex ⟨⟨0, 0⟩, ⟨100, 0⟩, ⟨100, 100⟩, ⟨90, 10⟩⟩ = false := by
  constructor
  · unfold EdgeDetection.validateCorners EdgeDetection.calculatePolygonArea cornersList
    norm_num
  · unfold PerspectiveCorrection.quadIsConvex PerspectiveCorrection.quadCrossProducts
      PerspectiveCorrection.cross
    norm_num

/-- Claim C5 (amended): the repository splits the specification's single
`validate` into two partial validators: the 3-argument edge-detection
`validateCorners` returns true exactly when all corners lie within
`[0, width] × [0, height]` and the quad area is at least 10% of the
frame area (it checks neither corner separation nor convexity), while
the 1-argument `perspectiveCorrection` `validateCorners` returns true
exactly when all corner pairs are at least the minimum pixel distance
apart and the quad is convex (it checks neither bounds nor area). -/
theorem validators_characterization (c : Corners) (w h : ℚ) :
    EdgeDetection.validateCorners c w h =
      (ClaimSide.specInBounds c w h && ClaimSide.specAreaAtLeastTenth c w h) ∧
    PerspectiveCorrection.validateCorners c =
      (ClaimSide.specSeparated c && PerspectiveCorrection.quadIsConvex c) :=
  ⟨edgeValidate_eq c w h, pcValidate_eq c⟩

/-- Claim C9: for every positive width and height, the centered 5%-inset
default quad passes the 3-argument `validateCorners`. -/
theorem defaultCorners_pass_validate (w h : ℚ) (hw : 0 < w) (hh : 0 < h) :
    EdgeDetection.validateCorners (PerspectiveCorrection.createDefaultCorners w h) w h = true := by
  rw [edgeValidate_eq, Bool.and_eq_true]
  constructor
  · unfold ClaimSide.specInBounds PerspectiveCorrection.createDefaultCorners cornersList
    simp only [List.all_cons, List.all_nil, Bool.and_eq_true, decide_eq_true_eq, and_true]
    repeat' apply And.intro
    all_goals linarith
  · unfold ClaimSide.specAreaAtLeastTenth EdgeDetection.calculatePolygonArea
      PerspectiveCorrection.createDefaultCorners
    simp only [decide_eq_true_eq]
    rw [abs_of_nonneg (by nlinarith [mul_pos hw hh])]
    nlinarith [mul_pos hw hh]

/-- Witness for C9 at a `100 × 100` frame. -/
theorem defaultCorners_pass_validate_witness :
    (0 : ℚ) < 100 ∧
    EdgeDetection.validateCorners (PerspectiveCorrection.createDefaultCorners 100 100) 100 100 =
      true :=
  ⟨by norm_num, defaultCorners_pass_validate 100 100 (by norm_num) (by norm_num)⟩

/-- `jdiv` propagates `NaN` in its first argument. -/
theorem jdiv_nan_left (x : JSNum) : JSNum.jdiv JSNum.nan x = JSNum.nan := by
  cases x <;> rfl

/-- A zero-length second edge makes `calculateAngle` return `NaN`
(JavaScript `0 / 0`). -/
theorem calculateAngle_nan_right (acosDeg : ℚ → ℚ → ℚ) (p1 vertex : Point) :
    calculateAngle acosDeg p1 vertex vertex = JSNum.nan := by
  unfold calculateAngle
  simp

/-- If any corner angle is `NaN`, the average deviation is `NaN` and the
sharpness tier chain falls through to `40`. -/
theorem sharpness_40_of_nan (acosDeg : ℚ → ℚ → ℚ) (c : Corners)
    (h : JSNum.nan ∈ calculateCornerAngles acosDeg c) :
    calculateSharpnessScore acosDeg c = 40 := by
  unfold calculateSharpnessScore
  have hdev : JSNum.nan ∈
      (calculateCornerAngles acosDeg c).map (fun angle => jabs (jsub angle (num 90))) :=
    List.mem_map.mpr ⟨JSNum.nan, h, rfl⟩
  have hsum := JSNum.foldl_jadd_of_mem_nan _ (num 0) hdev
  simp [hsum, jdiv_nan_left]

/-- The squared-ratio flag is false when the first length is zero. -/
theorem ratio_flag_false_left (b : ℚ) (hb : 0 ≤ b) :
    decide (min 0 b / max 0 b > 16 / 25) = false := by
  rw [min_eq_left hb, zero_div]
  exact decide_eq_false (by norm_num)

/-- The squared-ratio flag is false when the second length is zero. -/
theorem ratio_flag_false_right (a : ℚ) (ha : 0 ≤ a) :
    decide (min a 0 / max a 0 > 16 / 25) = false := by
  rw [min_eq_right ha, zero_div]
  exact decide_eq_false (by norm_num)

/-- A quad with a zero-length side (two coincident adjacent corners)
always fails `isValidQuadrilateral`. -/
theorem isValid_false_of_degenerate (c : Corners)
    (h : c.topLeft = c.topRight ∨ c.topRight = c.bottomRight ∨
         c.bottomRight = c.bottomLeft ∨ c.bottomLeft = c.topLeft) :
    isValidQuadrilateral c = false := by
  unfold DocumentTypeDetector.isValidQuadrilateral
  dsimp only
  have hzero : ∀ p : Point, distSq p p = 0 := by
    intro p
    simp [distSq]
  rcases h with h | h | h | h
  · have h0 : distSq c.topLeft c.topRight = 0 := by rw [h]; exact hzero _
    rw [h0, ratio_flag_false_left _ (distSq_nonneg _ _), Bool.false_and]
  · have h0 : distSq c.topRight c.bottomRight = 0 := by rw [h]; exact hzero _
    rw [h0, ratio_flag_false_right _ (distSq_nonneg _ _), Bool.and_false]
  · have h0 : distSq c.bottomLeft c.bottomRight = 0 := by rw [← h]; exact hzero _
    rw [h0, ratio_flag_false_right _ (distSq_nonneg _ _), Bool.false_and]
  · have h0 : distSq c.topLeft c.bottomLeft = 0 := by rw [← h]; exact hzero _
    rw [h0, ratio_flag_false_left _ (distSq_nonneg _ _), Bool.and_false]

/-- Counterexample to claim C6 as stated: on a zero-length edge the
interior-angle primitive returns `NaN` (JavaScript `0 / 0` flowing
through `clamp` and `acos`), not the claimed sentinel `0°`. -/
theorem degenerate_angle_not_sentinel_zero :
    calculateAngle (fun _ _ => 0) ⟨0, 0⟩ ⟨0, 0⟩ ⟨1, 0⟩ = JSNum.nan ∧
    (JSNum.nan : JSNum) ≠ JSNum.num 0 := by
  constructor
  · unfold calculateAngle
    norm_num
  · simp

/-- Claim C6 (amended): for every quad with a zero-length edge (two
coincident adjacent corners) the interior-angle primitive returns `NaN`
rather than the sentinel `0°`, but the `NaN` still does not propagate
into the sub-scores: the sharpness score falls through every `NaN`
comparison to `40`, and the confidence score is `20` because a
zero-length side always fails the rectangularity check — uniformly in
the abstracted angle function. -/
theorem degenerate_quad_nan_contained (acosDeg : ℚ → ℚ → ℚ) (c : Corners)
    (h : c.topLeft = c.topRight ∨ c.topRight = c.bottomRight ∨
         c.bottomRight = c.bottomLeft ∨ c.bottomLeft = c.topLeft) :
    JSNum.nan ∈ calculateCornerAngles acosDeg c ∧
    calculateSharpnessScore acosDeg c = 40 ∧
    calculateConfidenceScore acosDeg c = 20 := by
  have hmem : JSNum.nan ∈ calculateCornerAngles acosDeg c := by
    unfold calculateCornerAngles
    rcases h with h | h | h | h
    · have hn : calculateAngle acosDeg c.bottomLeft c.topLeft c.topRight = JSNum.nan := by
        rw [h]
        exact calculateAngle_nan_right acosDeg _ _
      simp [hn]
    · have hn : calculateAngle acosDeg c.topLeft c.topRight c.bottomRight = JSNum.nan := by
        rw [h]
        exact calculateAngle_nan_right acosDeg _ _
      simp [hn]
    · have hn : calculateAngle acosDeg c.topRight c.bottomRight c.bottomLeft = JSNum.nan := by
        rw [h]
        exact calculateAngle_nan_right acosDeg _ _
      simp [hn]
    · have hn : calculateAngle acosDeg c.bottomRight c.bottomLeft c.topLeft = JSNum.nan := by
        rw [h]
        exact calculateAngle_nan_right acosDeg _ _
      simp [hn]
  refine ⟨hmem, sharpness_40_of_nan acosDeg c hmem, ?_⟩
  have hf := isValid_false_of_degenerate c h
  unfold ScanQualityAnalyzer.calculateConfidenceScore
  rw [hf]
  rfl

/-- Witness for C6 (amended) at a quad whose top-left and top-right
corners coincide. -/
theorem degenerate_quad_nan_contained_witness :
    calculateSharpnessScore (fun _ _ => 0) ⟨⟨0, 0⟩, ⟨0, 0⟩, ⟨1, 1⟩, ⟨0, 1⟩⟩ = 40 ∧
    ScanQualityAnalyzer.calculateConfidenceScore (fun _ _ => 0)
      ⟨⟨0, 0⟩, ⟨0, 0⟩, ⟨1, 1⟩, ⟨0, 1⟩⟩ = 20 :=
  ⟨(degenerate_quad_nan_contained (fun _ _ => 0) ⟨⟨0, 0⟩, ⟨0, 0⟩, ⟨1, 1⟩, ⟨0, 1⟩⟩
      (Or.inl rfl)).2.1,
   (degenerate_quad_nan_contained (fun _ _ => 0) ⟨⟨0, 0⟩, ⟨0, 0⟩, ⟨1, 1⟩, ⟨0, 1⟩⟩
      (Or.inl rfl)).2.2⟩

/-! ## Controller step lemmas -/

namespace AutoCapture

/-- A firing `processQuality` call implies the controller was enabled,
the sample qualified, the hold duration had elapsed since
`readyStartTime`, the debounce window had passed — and the session is
reset with `lastCaptureTime = now`. -/
theorem processQuality_fire (cfg : AutoCaptureConfig) (s : ControllerSession)
    (q : QualityInput) (hfire : (processQuality cfg s q).2.shouldCapture = true) :
    cfg.enabled = true ∧
    (cfg.minQualityScore ≤ q.overall ∧ q.level = QualityLevel.good) ∧
    cfg.holdDurationMs ≤ q.now - s.readyStartTime.getD q.now ∧
    minTimeBetweenCaptures ≤ q.now - s.lastCaptureTime ∧
    (processQuality cfg s q).1 = ⟨[], none, q.now⟩ := by
  by_cases h1 : cfg.enabled
  · by_cases h2 : cfg.minQualityScore ≤ q.overall ∧ q.level = QualityLevel.good
    · by_cases h3 : cfg.holdDurationMs ≤ q.now - s.readyStartTime.getD q.now ∧
          minTimeBetweenCaptures ≤ q.now - s.lastCaptureTime
      · refine ⟨h1, h2, h3.1, h3.2, ?_⟩
        simp [processQuality, h1, h2, h3.1, h3.2]
      · exfalso
        simp [processQuality, h1, h2] at hfire
        rw [apply_ite (fun x : ControllerSession × AutoCaptureState => x.2.shouldCapture),
          ite_self] at hfire
        simp at hfire
        exact h3 hfire
    · exfalso
      simp [processQuality, h1, h2] at hfire
  · exfalso
    simp [processQuality, Bool.of_not_eq_true h1] at hfire

/-- Branch equation: disabled controller. -/
theorem processQuality_eq_disabled (cfg : AutoCaptureConfig) (s : ControllerSession)
    (q : QualityInput) (h : cfg.enabled = false) :
    processQuality cfg s q =
      (s, { isReady := false, progress := 0, timeRemaining := 0, shouldCapture := false }) := by
  simp [processQuality, h]

/-- Branch equation: enabled but the sample does not qualify — the
history is pushed and trimmed, `readyStartTime` cleared. -/
theorem processQuality_eq_unqualified (cfg : AutoCaptureConfig) (s : ControllerSession)
    (q : QualityInput) (hen : cfg.enabled = true)
    (h : ¬(cfg.minQualityScore ≤ q.overall ∧ q.level = QualityLevel.good)) :
    processQuality cfg s q =
      (⟨(s.qualityHistory ++ [(⟨q.overall, q.now⟩ : QualityHistory)]).filter (fun e => q.now - 3000 ≤ e.timestamp),
        none, s.lastCaptureTime⟩,
       ⟨false, 0, cfg.holdDurationMs, false⟩) := by
  simp [processQuality, hen, h]

/-- Branch equation: qualifying sample whose hold and debounce
conditions are both met — the call fires and resets the session. -/
theorem processQuality_eq_fire (cfg : AutoCaptureConfig) (s : ControllerSession)
    (q : QualityInput) (hen : cfg.enabled = true)
    (hq : cfg.minQualityScore ≤ q.overall ∧ q.level = QualityLevel.good)
    (hhold : cfg.holdDurationMs ≤ q.now - s.readyStartTime.getD q.now)
    (hdeb : minTimeBetweenCaptures ≤ q.now - s.lastCaptureTime) :
    processQuality cfg s q =
      (⟨[], none, q.now⟩,
       ⟨true, min 1 ((q.now - s.readyStartTime.getD q.now) / cfg.holdDurationMs),
        max 0 (cfg.holdDurationMs - (q.now - s.readyStartTime.getD q.now)), true⟩) := by
  simp [processQuality, hen, hq, hhold, hdeb]

/-- Branch equation: qualifying sample that does not fire — the streak
start is kept (or set to `now`), `lastCaptureTime` unchanged. -/
theorem processQuality_eq_nofire (cfg : AutoCaptureConfig) (s : ControllerSession)
    (q : QualityInput) (hen : cfg.enabled = true)
    (hq : cfg.minQualityScore ≤ q.overall ∧ q.level = QualityLevel.good)
    (hnf : ¬(cfg.holdDurationMs ≤ q.now - s.readyStartTime.getD q.now ∧
             minTimeBetweenCaptures ≤ q.now - s.lastCaptureTime)) :
    processQuality cfg s q =
      (⟨(s.qualityHistory ++ [(⟨q.overall, q.now⟩ : QualityHistory)]).filter (fun e => q.now - 3000 ≤ e.timestamp),
        some (s.readyStartTime.getD q.now), s.lastCaptureTime⟩,
       ⟨true, min 1 ((q.now - s.readyStartTime.getD q.now) / cfg.holdDurationMs),
        max 0 (cfg.holdDurationMs - (q.now - s.readyStartTime.getD q.now)),
        decide (cfg.holdDurationMs ≤ q.now - s.readyStartTime.getD q.now) &&
          decide (minTimeBetweenCaptures ≤ q.now - s.lastCaptureTime)⟩) := by
  have hb : (decide (cfg.holdDurationMs ≤ q.now - s.readyStartTime.getD q.now) &&
      decide (minTimeBetweenCaptures ≤ q.now - s.lastCaptureTime)) = false := by
    rw [← Bool.decide_and]
    exact decide_eq_false hnf
  simp [processQuality, hen, hq, hb]

/-- A non-firing call leaves `lastCaptureTime` unchanged. -/
theorem processQuality_nofire_lastCapture (cfg : AutoCaptureConfig) (s : ControllerSession)
    (q : QualityInput) (h : (processQuality cfg s q).2.shouldCapture = false) :
    (processQuality cfg s q).1.lastCaptureTime = s.lastCaptureTime := by
  by_cases h1 : cfg.enabled
  · by_cases h2 : cfg.minQualityScore ≤ q.overall ∧ q.level = QualityLevel.good
    · by_cases h3 : cfg.holdDurationMs ≤ q.now - s.readyStartTime.getD q.now ∧
          minTimeBetweenCaptures ≤ q.now - s.lastCaptureTime
      · exfalso
        rw [processQuality_eq_fire cfg s q h1 h2 h3.1 h3.2] at h
        simp at h
      · rw [processQuality_eq_nofire cfg s q h1 h2 h3]
    · rw [processQuality_eq_unqualified cfg s q h1 h2]
  · rw [processQuality_eq_disabled cfg s q (Bool.of_not_eq_true h1)]

/-- Within the debounce window after the last capture, no call fires. -/
theorem processQuality_nofire_of_debounce (cfg : AutoCaptureConfig) (s : ControllerSession)
    (q : QualityInput) (h : q.now - s.lastCaptureTime < minTimeBetweenCaptures) :
    (processQuality cfg s q).2.shouldCapture = false := by
  by_cases h1 : cfg.enabled
  · by_cases h2 : cfg.minQualityScore ≤ q.overall ∧ q.level = QualityLevel.good
    · have hnf : ¬(cfg.holdDurationMs ≤ q.now - s.readyStartTime.getD q.now ∧
          minTimeBetweenCaptures ≤ q.now - s.lastCaptureTime) := by
        intro hc
        exact absurd hc.2 (not_le.mpr h)
      rw [processQuality_eq_nofire cfg s q h1 h2 hnf]
      dsimp only
      rw [← Bool.decide_and]
      exact decide_eq_false hnf
    · rw [processQuality_eq_unqualified cfg s q h1 h2]
  · rw [processQuality_eq_disabled cfg s q (Bool.of_not_eq_true h1)]

/-- Each call either keeps `lastCaptureTime` or stamps it with `now`. -/
theorem processQuality_lastCapture_cases (cfg : AutoCaptureConfig) (s : ControllerSession)
    (q : QualityInput) :
    (processQuality cfg s q).1.lastCaptureTime = s.lastCaptureTime ∨
    (processQuality cfg s q).1.lastCaptureTime = q.now := by
  by_cases hfire : (processQuality cfg s q).2.shouldCapture = true
  · right
    rw [(processQuality_fire cfg s q hfire).2.2.2.2]
  · left
    exact processQuality_nofire_lastCapture cfg s q (Bool.of_not_eq_true hfire)

/-- If a call produces `readyStartTime = some t0`, the sample qualified
and the streak start was either inherited or set to `now`. -/
theorem processQuality_ready_some (cfg : AutoCaptureConfig) (s : ControllerSession)
    (q : QualityInput) (t0 : ℚ) (hen : cfg.enabled = true)
    (h : (processQuality cfg s q).1.readyStartTime = some t0) :
    qualifies cfg q ∧
    (s.readyStartTime = some t0 ∨ (s.readyStartTime = none ∧ t0 = q.now)) := by
  by_cases h2 : cfg.minQualityScore ≤ q.overall ∧ q.level = QualityLevel.good
  · by_cases h3 : cfg.holdDurationMs ≤ q.now - s.readyStartTime.getD q.now ∧
        minTimeBetweenCaptures ≤ q.now - s.lastCaptureTime
    · rw [processQuality_eq_fire cfg s q hen h2 h3.1 h3.2] at h
      simp at h
    · rw [processQuality_eq_nofire cfg s q hen h2 h3] at h
      dsimp only at h
      refine ⟨h2, ?_⟩
      cases hrs : s.readyStartTime with
      | none =>
        right
        rw [hrs] at h
        simp at h
        exact ⟨rfl, h.symm⟩
      | some t1 =>
        left
        rw [hrs] at h
        simp at h
        rw [h]
  · rw [processQuality_eq_unqualified cfg s q hen h2] at h
    simp at h

@[simp] theorem runController_nil (cfg : AutoCaptureConfig) (s : ControllerSession) :
    runController cfg s [] = s := rfl

@[simp] theorem runController_cons (cfg : AutoCaptureConfig) (s : ControllerSession)
    (q : QualityInput) (l : List QualityInput) :
    runController cfg s (q :: l) = runController cfg (processQuality cfg s q).1 l := rfl

@[simp] theorem runOutputs_nil (cfg : AutoCaptureConfig) (s : ControllerSession) :
    runOutputs cfg s [] = [] := rfl

@[simp] theorem runOutputs_cons (cfg : AutoCaptureConfig) (s : ControllerSession)
    (q : QualityInput) (l : List QualityInput) :
    runOutputs cfg s (q :: l) =
      (processQuality cfg s q).2 :: runOutputs cfg (processQuality cfg s q).1 l := rfl

theorem runController_append (cfg : AutoCaptureConfig) (l1 l2 : List QualityInput) :
    ∀ s : ControllerSession,
      runController cfg s (l1 ++ l2) = runController cfg (runController cfg s l1) l2 := by
  induction l1 with
  | nil => intro s; rfl
  | cons q rest ih => intro s; simp [ih]

theorem runOutputs_append (cfg : AutoCaptureConfig) (l1 l2 : List QualityInput) :
    ∀ s : ControllerSession,
      runOutputs cfg s (l1 ++ l2) =
        runOutputs cfg s l1 ++ runOutputs cfg (runController cfg s l1) l2 := by
  induction l1 with
  | nil => intro s; rfl
  | cons q rest ih => intro s; simp [ih]

/-- `lastCaptureTime` never decreases below a bound that all call times
respect. -/
theorem runController_lastCapture_ge (cfg : AutoCaptureConfig) (t : ℚ) :
    ∀ (l : List QualityInput) (s : ControllerSession),
      t ≤ s.lastCaptureTime → (∀ q ∈ l, t ≤ q.now) →
      t ≤ (runController cfg s l).lastCaptureTime := by
  intro l
  induction l with
  | nil => intro s hs _; simpa using hs
  | cons q rest ih =>
    intro s hs hall
    rw [runController_cons]
    apply ih
    · rcases processQuality_lastCapture_cases cfg s q with h | h
      · rw [h]; exact hs
      · rw [h]; exact hall q (List.mem_cons_self q rest)
    · intro q' hq'
      exact hall q' (List.mem_cons_of_mem _ hq')

/-- No call in a run fires while every call time stays within the
debounce window of the starting `lastCaptureTime`, and that field is
left unchanged. -/
theorem runController_nofire_debounce (cfg : AutoCaptureConfig) :
    ∀ (l : List QualityInput) (s : ControllerSession),
      (∀ q ∈ l, q.now - s.lastCaptureTime < minTimeBetweenCaptures) →
      (∀ st ∈ runOutputs cfg s l, st.shouldCapture = false) ∧
      (runController cfg s l).lastCaptureTime = s.lastCaptureTime := by
  intro l
  induction l with
  | nil => intro s _; exact ⟨by simp, rfl⟩
  | cons q rest ih =>
    intro s hall
    have hq := hall q (List.mem_cons_self q rest)
    have hnf : (processQuality cfg s q).2.shouldCapture = false :=
      processQuality_nofire_of_debounce cfg s q hq
    have hlc : (processQuality cfg s q).1.lastCaptureTime = s.lastCaptureTime :=
      processQuality_nofire_lastCapture cfg s q hnf
    obtain ⟨ihout, ihlc⟩ := ih (processQuality cfg s q).1 (by
      intro q' hq'
      rw [hlc]
      exact hall q' (List.mem_cons_of_mem _ hq'))
    refine ⟨?_, by rw [runController_cons, ihlc, hlc]⟩
    intro st hst
    rw [runOutputs_cons] at hst
    rcases List.mem_cons.mp hst with rfl | hmem
    · exact hnf
    · exact ihout st hmem

/-- While a streak accumulates (every sample qualifies and stays short
of the hold duration), the streak start and `lastCaptureTime` are
preserved and nothing fires. -/
theorem runController_accumulating (cfg : AutoCaptureConfig) (hen : cfg.enabled = true)
    (t0 : ℚ) :
    ∀ (l : List QualityInput) (s : ControllerSession),
      s.readyStartTime = some t0 →
      (∀ q ∈ l, qualifies cfg q) →
      (∀ q ∈ l, q.now - t0 < cfg.holdDurationMs) →
      (runController cfg s l).readyStartTime = some t0 ∧
      (runController cfg s l).lastCaptureTime = s.lastCaptureTime ∧
      ∀ st ∈ runOutputs cfg s l, st.shouldCapture = false := by
  intro l
  induction l with
  | nil => intro s h _ _; exact ⟨h, rfl, by simp⟩
  | cons q rest ih =>
    intro s hready hq hh
    have hq1 : qualifies cfg q := hq q (List.mem_cons_self q rest)
    have hh1 : q.now - t0 < cfg.holdDurationMs := hh q (List.mem_cons_self q rest)
    have hnf : ¬(cfg.holdDurationMs ≤ q.now - s.readyStartTime.getD q.now ∧
        minTimeBetweenCaptures ≤ q.now - s.lastCaptureTime) := by
      rw [hready]
      simp only [Option.getD_some]
      intro hc
      exact absurd hc.1 (not_le.mpr hh1)
    have hstep := processQuality_eq_nofire cfg s q hen hq1 hnf
    have hpost1 : (processQuality cfg s q).1.readyStartTime = some t0 := by
      rw [hstep]
      dsimp only
      rw [hready]
      rfl
    have hpost2 : (processQuality cfg s q).1.lastCaptureTime = s.lastCaptureTime := by
      rw [hstep]
    have hout : (processQuality cfg s q).2.shouldCapture = false := by
      rw [hstep]
      dsimp only
      rw [← Bool.decide_and]
      exact decide_eq_false hnf
    obtain ⟨ih1, ih2, ih3⟩ := ih (processQuality cfg s q).1 hpost1
      (fun q' hq' => hq q' (List.mem_cons_of_mem _ hq'))
      (fun q' hq' => hh q' (List.mem_cons_of_mem _ hq'))
    refine ⟨ih1, by rw [runController_cons, ih2, hpost2], ?_⟩
    intro st hst
    rw [runOutputs_cons] at hst
    rcases List.mem_cons.mp hst with rfl | hmem
    · exact hout
    · exact ih3 st hmem

/-- If a run ends with `readyStartTime = some t0`, the streak either
predates the run (and every call qualified) or began at a call whose
time is `t0`, with every later call qualifying. -/
theorem runController_ready_origin (cfg : AutoCaptureConfig) (hen : cfg.enabled = true)
    (t0 : ℚ) :
    ∀ (l : List QualityInput) (s : ControllerSession),
      (runController cfg s l).readyStartTime = some t0 →
      (s.readyStartTime = some t0 ∧ ∀ q ∈ l, qualifies cfg q) ∨
      (∃ ta q0 tb, l = ta ++ q0 :: tb ∧ q0.now = t0 ∧ qualifies cfg q0 ∧
        ∀ q' ∈ tb, qualifies cfg q') := by
  intro l
  induction l with
  | nil =>
    intro s h
    left
    exact ⟨h, by simp⟩
  | cons q rest ih =>
    intro s h
    rw [runController_cons] at h
    rcases ih (processQuality cfg s q).1 h with ⟨hr, hall⟩ | ⟨ta, q0, tb, heq, hq0, hqual, hall⟩
    · have hstep := processQuality_ready_some cfg s q t0 hen hr
      rcases hstep.2 with hsome | ⟨hnone, ht0⟩
      · left
        refine ⟨hsome, ?_⟩
        intro q' hq'
        rcases List.mem_cons.mp hq' with rfl | hmem
        · exact hstep.1
        · exact hall q' hmem
      · right
        exact ⟨[], q, rest, by simp, ht0.symm, hstep.1, hall⟩
    · right
      refine ⟨q :: ta, q0, tb, ?_, hq0, hqual, hall⟩
      rw [heq]
      rfl

/-- The head of a non-empty `dropWhile` result fails the predicate. -/
theorem dropWhile_head_false (p : α → Bool) :
    ∀ (l : List α) (x : α) (xs : List α), l.dropWhile p = x :: xs → p x = false := by
  intro l
  induction l with
  | nil =>
    intro x xs h
    simp at h
  | cons a as ih =>
    intro x xs h
    rw [List.dropWhile_cons] at h
    split_ifs at h with hp
    · exact ih x xs h
    · cases h
      exact Bool.of_not_eq_true hp

/-- One completely held qualifying streak (every call qualifies, the
hold duration completes inside it, and it ends within the debounce
window of the fire) produces exactly one `shouldCapture = true`. -/
theorem run_allqualified_exactly_one_fire (cfg : AutoCaptureConfig)
    (hist : List QualityHistory) (c : ℚ) (q1 : QualityInput) (rest : List QualityInput)
    (hen : cfg.enabled = true) (hhold : 0 < cfg.holdDurationMs)
    (hq : ∀ q ∈ q1 :: rest, qualifies cfg q)
    (hdeb : ∀ q ∈ q1 :: rest, c + minTimeBetweenCaptures ≤ q.now)
    (hcomplete : ∃ qc ∈ q1 :: rest, cfg.holdDurationMs ≤ qc.now - q1.now)
    (hspan : ∀ q ∈ q1 :: rest, q.now - q1.now < cfg.holdDurationMs + minTimeBetweenCaptures) :
    (runOutputs cfg ⟨hist, none, c⟩ (q1 :: rest)).countP (fun st => st.shouldCapture) = 1 := by
  have hq1 : qualifies cfg q1 := hq q1 (List.mem_cons_self _ _)
  -- the first call starts the streak without firing
  have hnf1 : ¬(cfg.holdDurationMs ≤
        q1.now - (⟨hist, none, c⟩ : ControllerSession).readyStartTime.getD q1.now ∧
      minTimeBetweenCaptures ≤ q1.now - (⟨hist, none, c⟩ : ControllerSession).lastCaptureTime) := by
    intro hc
    have h1 : cfg.holdDurationMs ≤ (0 : ℚ) := by simpa using hc.1
    linarith
  have hstep1 := processQuality_eq_nofire cfg ⟨hist, none, c⟩ q1 hen hq1 hnf1
  have hs1ready : (processQuality cfg ⟨hist, none, c⟩ q1).1.readyStartTime = some q1.now := by
    rw [hstep1]
    simp
  have hs1lc : (processQuality cfg ⟨hist, none, c⟩ q1).1.lastCaptureTime = c := by
    rw [hstep1]
  have hout1 : (processQuality cfg ⟨hist, none, c⟩ q1).2.shouldCapture = false := by
    rw [hstep1]
    dsimp only
    rw [← Bool.decide_and]
    exact decide_eq_false hnf1
  -- split `rest` at the first call that completes the hold
  have hqc : ∃ qc ∈ rest, cfg.holdDurationMs ≤ qc.now - q1.now := by
    obtain ⟨qc, hqcmem, hqchold⟩ := hcomplete
    rcases List.mem_cons.mp hqcmem with rfl | hmem
    · exfalso
      rw [sub_self] at hqchold
      linarith
    · exact ⟨qc, hmem, hqchold⟩
  obtain ⟨qc, hqcmem, hqchold⟩ := hqc
  have hdropne :
      rest.dropWhile (fun q => decide (q.now - q1.now < cfg.holdDurationMs)) ≠ [] := by
    intro hnil
    have hp := List.dropWhile_eq_nil_iff.mp hnil qc hqcmem
    rw [decide_eq_true_eq] at hp
    linarith
  cases htail : rest.dropWhile (fun q => decide (q.now - q1.now < cfg.holdDurationMs)) with
  | nil => exact absurd htail hdropne
  | cons qf rb =>
  have hPqf : (fun q : QualityInput => decide (q.now - q1.now < cfg.holdDurationMs)) qf
      = false := dropWhile_head_false _ rest qf rb htail
  have hqfhold : cfg.holdDurationMs ≤ qf.now - q1.now := by
    rw [decide_eq_false_iff_not] at hPqf
    exact not_lt.mp hPqf
  have hqfmem : qf ∈ rest := by
    have hsfx :=
      List.dropWhile_suffix (l := rest) (fun q : QualityInput => decide (q.now - q1.now < cfg.holdDurationMs))
    rw [htail] at hsfx
    exact hsfx.subset (List.mem_cons_self _ _)
  have hsplit : rest =
      rest.takeWhile (fun q => decide (q.now - q1.now < cfg.holdDurationMs)) ++ qf :: rb := by
    conv_lhs => rw [← List.takeWhile_append_dropWhile
      (fun q : QualityInput => decide (q.now - q1.now < cfg.holdDurationMs)) rest]
    rw [htail]
  -- the accumulation prefix neither fires nor disturbs the session
  obtain ⟨hpre1, hpre2, hpre3⟩ := runController_accumulating cfg hen q1.now
    (rest.takeWhile (fun q => decide (q.now - q1.now < cfg.holdDurationMs)))
    (processQuality cfg ⟨hist, none, c⟩ q1).1 hs1ready
    (by
      intro q' hq'
      exact hq q' (List.mem_cons_of_mem _
        ((List.takeWhile_prefix _).subset hq')))
    (by
      intro q' hq'
      have hp := List.mem_takeWhile_imp hq'
      rwa [decide_eq_true_eq] at hp)
  -- the completing call fires
  have hqfq : qualifies cfg qf := hq qf (List.mem_cons_of_mem _ hqfmem)
  have hfirecond : cfg.holdDurationMs ≤ qf.now -
      (runController cfg (processQuality cfg ⟨hist, none, c⟩ q1).1
        (rest.takeWhile (fun q => decide (q.now - q1.now < cfg.holdDurationMs)))).readyStartTime.getD qf.now := by
    rw [hpre1]
    simpa using hqfhold
  have hdebqf : minTimeBetweenCaptures ≤ qf.now -
      (runController cfg (processQuality cfg ⟨hist, none, c⟩ q1).1
        (rest.takeWhile (fun q => decide (q.now - q1.now < cfg.holdDurationMs)))).lastCaptureTime := by
    rw [hpre2, hs1lc]
    have := hdeb qf (List.mem_cons_of_mem _ hqfmem)
    linarith
  have hstepf := processQuality_eq_fire cfg
    (runController cfg (processQuality cfg ⟨hist, none, c⟩ q1).1
      (rest.takeWhile (fun q => decide (q.now - q1.now < cfg.holdDurationMs)))) qf
    hen hqfq hfirecond hdebqf
  have houtf : (processQuality cfg
      (runController cfg (processQuality cfg ⟨hist, none, c⟩ q1).1
        (rest.takeWhile (fun q => decide (q.now - q1.now < cfg.holdDurationMs)))) qf).2.shouldCapture = true := by
    rw [hstepf]
  have hs3 : (processQuality cfg
      (runController cfg (processQuality cfg ⟨hist, none, c⟩ q1).1
        (rest.takeWhile (fun q => decide (q.now - q1.now < cfg.holdDurationMs)))) qf).1 =
      ⟨[], none, qf.now⟩ := by
    rw [hstepf]
  -- everything after the fire is inside the new debounce window
  obtain ⟨hrbout, _⟩ := runController_nofire_debounce cfg rb
    (processQuality cfg
      (runController cfg (processQuality cfg ⟨hist, none, c⟩ q1).1
        (rest.takeWhile (fun q => decide (q.now - q1.now < cfg.holdDurationMs)))) qf).1
    (by
      intro q' hq'
      rw [hs3]
      dsimp only
      have hmem' : q' ∈ rest := by
        rw [hsplit]
        exact List.mem_append_right _ (List.mem_cons_of_mem _ hq')
      have hspan' := hspan q' (List.mem_cons_of_mem _ hmem')
      linarith)
  -- assemble the count
  have hlist : q1 :: rest =
      q1 :: (rest.takeWhile (fun q => decide (q.now - q1.now < cfg.holdDurationMs)) ++ qf :: rb) := by
    rw [← hsplit]
  have hzero1 : (runOutputs cfg (processQuality cfg ⟨hist, none, c⟩ q1).1
      (rest.takeWhile (fun q => decide (q.now - q1.now < cfg.holdDurationMs)))).countP
        (fun st => st.shouldCapture) = 0 :=
    List.countP_eq_zero.mpr (fun st hst => by simp [hpre3 st hst])
  have hzero2 : (runOutputs cfg
      (processQuality cfg
        (runController cfg (processQuality cfg ⟨hist, none, c⟩ q1).1
          (rest.takeWhile (fun q => decide (q.now - q1.now < cfg.holdDurationMs)))) qf).1
      rb).countP (fun st => st.shouldCapture) = 0 :=
    List.countP_eq_zero.mpr (fun st hst => by simp [hrbout st hst])
  rw [hlist, runOutputs_cons, runOutputs_append, runOutputs_cons]
  rw [List.countP_cons, List.countP_append, List.countP_cons]
  rw [hzero1, hzero2]
  simp [hout1, houtf]

/-- Claim C10: after `manualCapture()` at time `t`, every subsequent
`processQuality` call whose time lies within 2000 ms of `t` returns
`shouldCapture = false` regardless of the quality scores supplied — a
manual capture starts the same debounce interval as an automatic one. -/
theorem manualCapture_starts_debounce (cfg : AutoCaptureConfig) (t : ℚ)
    (tr : List QualityInput)
    (hall : ∀ q ∈ tr, q.now - t < minTimeBetweenCaptures) :
    ∀ st ∈ runOutputs cfg (manualCapture t) tr, st.shouldCapture = false :=
  (runController_nofire_debounce cfg tr (manualCapture t) hall).1

/-- Witness for C10: a perfect-quality call 1000 ms after a manual
capture does not fire. -/
theorem manualCapture_starts_debounce_witness :
    ((⟨100, QualityLevel.good, 6000⟩ : QualityInput).now - 5000 < minTimeBetweenCaptures) ∧
    ∀ st ∈ runOutputs ⟨true, 80, 1500, true⟩ (manualCapture 5000)
        [⟨100, QualityLevel.good, 6000⟩], st.shouldCapture = false := by
  constructor
  · norm_num [minTimeBetweenCaptures]
  · apply manualCapture_starts_debounce ⟨true, 80, 1500, true⟩ 5000
    intro q hq
    simp at hq
    rw [hq]
    norm_num [minTimeBetweenCaptures]

/-- Claim C1: with the controller enabled and a positive hold duration,
(i) a `processQuality` call fires only when the sample qualifies, at
least `minTimeBetweenCaptures` (2000 ms) has passed since the last
capture time, and the quality has qualified continuously since a call at
`readyStartTime` at least `holdDurationMs` earlier; (ii) a firing call
clears `readyStartTime` and stamps `lastCaptureTime = now`; (iii) no two
calls within 2000 ms of each other both fire; (iv) one completely held
qualifying streak yields exactly one `shouldCapture = true`. -/
theorem autoCapture_debounced_hysteresis :
    (∀ (cfg : AutoCaptureConfig) (s0 : ControllerSession) (tr : List QualityInput)
        (q : QualityInput),
      cfg.enabled = true → 0 < cfg.holdDurationMs → s0.readyStartTime = none →
      (processQuality cfg (runController cfg s0 tr) q).2.shouldCapture = true →
      qualifies cfg q ∧
      minTimeBetweenCaptures ≤ q.now - (runController cfg s0 tr).lastCaptureTime ∧
      ∃ t0, (runController cfg s0 tr).readyStartTime = some t0 ∧
        cfg.holdDurationMs ≤ q.now - t0 ∧
        ∃ ta q0 tb, tr = ta ++ q0 :: tb ∧ q0.now = t0 ∧ qualifies cfg q0 ∧
          ∀ q' ∈ tb, qualifies cfg q') ∧
    (∀ (cfg : AutoCaptureConfig) (s : ControllerSession) (q : QualityInput),
      (processQuality cfg s q).2.shouldCapture = true →
      (processQuality cfg s q).1.readyStartTime = none ∧
      (processQuality cfg s q).1.lastCaptureTime = q.now) ∧
    (∀ (cfg : AutoCaptureConfig) (s0 : ControllerSession) (tr1 : List QualityInput)
        (q1 : QualityInput) (tr2 : List QualityInput) (q2 : QualityInput),
      (∀ q ∈ tr2, q1.now ≤ q.now) →
      (processQuality cfg (runController cfg s0 tr1) q1).2.shouldCapture = true →
      (processQuality cfg
          (runController cfg (processQuality cfg (runController cfg s0 tr1) q1).1 tr2)
          q2).2.shouldCapture = true →
      q1.now + minTimeBetweenCaptures ≤ q2.now) ∧
    (∀ (cfg : AutoCaptureConfig) (hist : List QualityHistory) (c : ℚ)
        (q1 : QualityInput) (rest : List QualityInput),
      cfg.enabled = true → 0 < cfg.holdDurationMs →
      (∀ q ∈ q1 :: rest, qualifies cfg q) →
      (∀ q ∈ q1 :: rest, c + minTimeBetweenCaptures ≤ q.now) →
      (∃ qc ∈ q1 :: rest, cfg.holdDurationMs ≤ qc.now - q1.now) →
      (∀ q ∈ q1 :: rest, q.now - q1.now < cfg.holdDurationMs + minTimeBetweenCaptures) →
      (runOutputs cfg ⟨hist, none, c⟩ (q1 :: rest)).countP (fun st => st.shouldCapture) = 1) := by
  refine ⟨?_, ?_, ?_, ?_⟩
  · intro cfg s0 tr q hen hhold hs0 hfire
    obtain ⟨_, hqual, hhold', hdeb, _⟩ :=
      processQuality_fire cfg (runController cfg s0 tr) q hfire
    refine ⟨hqual, hdeb, ?_⟩
    cases hrs : (runController cfg s0 tr).readyStartTime with
    | none =>
      exfalso
      rw [hrs] at hhold'
      simp at hhold'
      linarith
    | some t0 =>
      rw [hrs] at hhold'
      simp only [Option.getD_some] at hhold'
      refine ⟨t0, rfl, hhold', ?_⟩
      rcases runController_ready_origin cfg hen t0 tr s0 hrs with ⟨hcontra, _⟩ | hsplit
      · rw [hs0] at hcontra
        exact absurd hcontra (by simp)
      · exact hsplit
  · intro cfg s q hfire
    have hpost := (processQuality_fire cfg s q hfire).2.2.2.2
    rw [hpost]
    exact ⟨rfl, rfl⟩
  · intro cfg s0 tr1 q1 tr2 q2 hmono hfire1 hfire2
    have hpost1 := (processQuality_fire cfg (runController cfg s0 tr1) q1 hfire1).2.2.2.2
    have hge : q1.now ≤
        (runController cfg (processQuality cfg (runController cfg s0 tr1) q1).1
          tr2).lastCaptureTime := by
      apply runController_lastCapture_ge cfg q1.now tr2
      · rw [hpost1]
      · exact hmono
    have hdeb2 := (processQuality_fire cfg _ q2 hfire2).2.2.2.1
    linarith
  · intro cfg hist c q1 rest hen hhold hq hdeb hcomplete hspan
    exact run_allqualified_exactly_one_fire cfg hist c q1 rest hen hhold hq hdeb
      hcomplete hspan

/-- Witness for C1: a fresh default-configured controller fed a
qualifying streak at 2000, 2700 and 3500 ms fires exactly once. -/
theorem autoCapture_debounced_hysteresis_witness :
    ((⟨true, 80, 1500, true⟩ : AutoCaptureConfig).enabled = true) ∧
    (runOutputs ⟨true, 80, 1500, true⟩ ⟨[], none, 0⟩
        [⟨90, QualityLevel.good, 2000⟩, ⟨90, QualityLevel.good, 2700⟩,
         ⟨95, QualityLevel.good, 3500⟩]).countP (fun st => st.shouldCapture) = 1 := by
  refine ⟨rfl, ?_⟩
  exact autoCapture_debounced_hysteresis.2.2.2 ⟨true, 80, 1500, true⟩ [] 0
    ⟨90, QualityLevel.good, 2000⟩
    [⟨90, QualityLevel.good, 2700⟩, ⟨95, QualityLevel.good, 3500⟩]
    rfl (by norm_num)
    (by intro q hq; fin_cases hq <;> exact ⟨by norm_num, rfl⟩)
    (by intro q hq; fin_cases hq <;> norm_num [minTimeBetweenCaptures])
    ⟨⟨95, QualityLevel.good, 3500⟩, by simp, by norm_num⟩
    (by intro q hq; fin_cases hq <;> norm_num [minTimeBetweenCaptures])

end AutoCapture

end ZenScan
